import Mathlib

/-!
Verification of the MVC To-do List web application's routing/request/response
core.  The TypeScript sources are shallowly embedded: JavaScript strings are
lists of characters, JavaScript numbers are modelled by `JSNum` (an exact
rational together with `NaN` and the infinities), JavaScript runtime values by
`JSValue`, and the effectful controller handlers become pure functions from
their inputs (parsed id values, request bodies, database outcomes) to the list
of response descriptors they emit and the list of database actions they
perform.
-/

/-- Characters treated as whitespace by the JavaScript `Number()` coercion
(ASCII whitespace, NBSP, the Unicode line separators and the BOM). -/
def jsWsChars : List Char :=
  [' ', '\t', '\n', '\r', Char.ofNat 11, Char.ofNat 12, Char.ofNat 160,
   Char.ofNat 0x2028, Char.ofNat 0x2029, Char.ofNat 0xFEFF]

/-- Whether a character is JavaScript whitespace. -/
def isJsWs (c : Char) : Bool := jsWsChars.contains c

/-- Strip leading and trailing JavaScript whitespace from a character list. -/
def trimChars (l : List Char) : List Char :=
  ((l.dropWhile isJsWs).reverse.dropWhile isJsWs).reverse

/-- Value of a list of decimal digit characters, most significant first. -/
def decValue (ds : List Char) : Nat :=
  ds.foldl (fun a c => 10 * a + (c.toNat - 48)) 0

/-- Value of a single hexadecimal digit character, if it is one. -/
def hexDigitVal (c : Char) : Option Nat :=
  if c.isDigit then some (c.toNat - 48)
  else if 97 ≤ c.toNat ∧ c.toNat ≤ 102 then some (c.toNat - 87)
  else if 65 ≤ c.toNat ∧ c.toNat ≤ 70 then some (c.toNat - 55)
  else none

/-- Value of a digit character in base `b` (`b` at most 16), if valid. -/
def radixDigitVal (b : Nat) (c : Char) : Option Nat :=
  (hexDigitVal c).bind (fun v => if v < b then some v else none)

/-- Value of a digit string in base `b`; `none` if any character is invalid. -/
def radixValue (b : Nat) (ds : List Char) : Option Nat :=
  ds.foldl (fun acc c => acc.bind (fun a => (radixDigitVal b c).map (fun v => b * a + v)))
    (some 0)

/-- A JavaScript number as far as this code base observes it: `NaN`, the two
infinities, or an exact rational (double rounding is not modelled; all numbers
appearing in the repository are small integers, for which the two agree). -/
inductive JSNum where
  | nan : JSNum
  | posInf : JSNum
  | negInf : JSNum
  | num : ℚ → JSNum
deriving DecidableEq

/-- Whether a `JSNum` is `NaN`, as JavaScript `isNaN` reports for a number. -/
def JSNum.isNaN : JSNum → Bool
  | .nan => true
  | _ => false

/-- JavaScript comparison `n <= 0` (false for `NaN`). -/
def JSNum.leZero : JSNum → Bool
  | .nan => false
  | .posInf => false
  | .negInf => true
  | .num q => q ≤ 0

/-- Rendering of a `JSNum` by JavaScript string interpolation; only the cases
exercised by the repository (integers and `NaN`) are rendered exactly. -/
def JSNum.render : JSNum → String
  | .nan => "NaN"
  | .posInf => "Infinity"
  | .negInf => "-Infinity"
  | .num q => if q.den = 1 then toString q.num else toString q

/-- Parse the digits after a `0x` / `0o` / `0b` prefix in `Number()`. -/
def parseRadix (b : Nat) (ds : List Char) : JSNum :=
  if ds = [] then .nan
  else match radixValue b ds with
    | some v => .num (v : ℚ)
    | none => .nan

/-- Parse the optional exponent tail of a decimal literal for `Number()`;
`some e` when the remainder is empty or a well-formed exponent, else `none`. -/
def parseExp (r : List Char) : Option Int :=
  match r with
  | [] => some 0
  | c :: r1 =>
    if c = 'e' ∨ c = 'E' then
      let sr : Bool × List Char :=
        match r1 with
        | '+' :: rr => (false, rr)
        | '-' :: rr => (true, rr)
        | rr => (false, rr)
      let ds := sr.2.takeWhile Char.isDigit
      if ds ≠ [] ∧ sr.2.dropWhile Char.isDigit = [] then
        some (if sr.1 then -(decValue ds : Int) else (decValue ds : Int))
      else none
    else none

/-- Combine integer digits, fraction digits and exponent into a rational.
The fraction-free non-negative-exponent case is computed in ℕ first (the two
branches agree; the first keeps whole numbers kernel-computable). -/
def decCombine (ip fp : List Char) (e : Int) : ℚ :=
  if fp = [] ∧ 0 ≤ e then ((decValue ip * 10 ^ e.toNat : ℕ) : ℚ)
  else ((decValue ip : ℚ) + (decValue fp : ℚ) / ((10 : ℚ) ^ fp.length)) * (10 : ℚ) ^ e

/-- Parse an unsigned decimal literal (with optional fraction and exponent)
exactly consuming `r`, as `Number()` requires; `none` means `NaN`. -/
def parseUnsignedDec (r : List Char) : Option ℚ :=
  let ip := r.takeWhile Char.isDigit
  let r1 := r.dropWhile Char.isDigit
  match r1 with
  | '.' :: r2 =>
    let fp := r2.takeWhile Char.isDigit
    let r3 := r2.dropWhile Char.isDigit
    if ip = [] ∧ fp = [] then none
    else (parseExp r3).map (fun e => decCombine ip fp e)
  | _ =>
    if ip = [] then none
    else (parseExp r1).map (fun e => decCombine ip [] e)

/-- Parse the part of a `Number()` literal after the optional sign. -/
def parseCore (r : List Char) (neg : Bool) : JSNum :=
  if r = ("Infinity").toList then (if neg then .negInf else .posInf)
  else match parseUnsignedDec r with
    | some q => .num (if neg then -q else q)
    | none => .nan

/-- Parse an optionally signed decimal / Infinity literal for `Number()`. -/
def parseSigned (t : List Char) : JSNum :=
  match t with
  | '+' :: r => parseCore r false
  | '-' :: r => parseCore r true
  | r => parseCore r false

/-- Detect a radix prefix (`0x`, `0o`, `0b`) at the head of the literal. -/
def radixOf (t : List Char) : Option (Nat × List Char) :=
  match t with
  | c0 :: c1 :: rest =>
    if c0 = '0' then
      if c1 = 'x' ∨ c1 = 'X' then some (16, rest)
      else if c1 = 'o' ∨ c1 = 'O' then some (8, rest)
      else if c1 = 'b' ∨ c1 = 'B' then some (2, rest)
      else none
    else none
  | _ => none

/-- `Number()` coercion of an already-trimmed character list. -/
def parseAfterTrim (t : List Char) : JSNum :=
  if t = [] then .num 0
  else match radixOf t with
    | some br => parseRadix br.1 br.2
    | none => parseSigned t

/-- JavaScript `Number(string)` on a character list: trim, then parse. -/
def jsNumberOfChars (l : List Char) : JSNum :=
  parseAfterTrim (trimChars l)

/-- JavaScript `Number(string)`. -/
def jsNumber (s : String) : JSNum := jsNumberOfChars s.toList

/-- JavaScript `Number(x)` where `x` is a string or `undefined` (`none`). -/
def jsNumberOpt : Option String → JSNum
  | none => .nan
  | some s => jsNumber s

/-- Splitting helper mirroring JavaScript `String.prototype.split("/")`. -/
def splitSlashGo : List Char → List Char → List (List Char)
  | [], acc => [acc.reverse]
  | c :: r, acc => if c = '/' then acc.reverse :: splitSlashGo r [] else splitSlashGo r (c :: acc)

/-- JavaScript `s.split("/")` as strings. -/
def splitSlash (s : String) : List String :=
  (splitSlashGo s.toList []).map (fun l => String.mk l)

/-- Embeds `Request.getId` (`src/.../models` request adapter): `Number` of the
segment at index 2 of the raw URL split on `/`; the URL may be `undefined`. -/
def Request.getId (url : Option String) : JSNum :=
  jsNumberOpt (url.bind (fun u => (splitSlash u)[2]?))

/-- Embeds `Request.getSubTodoId`: `Number` of the segment at index 4. -/
def Request.getSubTodoId (url : Option String) : JSNum :=
  jsNumberOpt (url.bind (fun u => (splitSlash u)[4]?))

/-- JavaScript `String.prototype.includes` (substring containment). -/
def strIncludes (hay pat : String) : Bool :=
  let h := hay.toList
  let p := pat.toList
  (List.range (h.length + 1)).any (fun i => List.isPrefixOf p (h.drop i))

/-- Embeds `Request.accepts`: true iff the `Accept` header is present and
contains the given MIME type as a substring. -/
def Request.accepts (acceptHeader : Option String) (type : String) : Bool :=
  match acceptHeader with
  | some a => strIncludes a type
  | none => false

/-- A JavaScript runtime value as observed by the request pipeline.  `vNull`
stands for both `null` and `undefined`, which the code base only ever
distinguishes through the nullish operators that treat them alike. -/
inductive JSValue where
  | vNull : JSValue
  | vBool : Bool → JSValue
  | vNum : JSNum → JSValue
  | vStr : String → JSValue
  | vArr : List JSValue → JSValue
  | vObj : List (String × JSValue) → JSValue

/-- JavaScript truthiness of a value. -/
def jsTruthy : JSValue → Bool
  | .vNull => false
  | .vBool b => b
  | .vNum n =>
    match n with
    | .nan => false
    | .num q => q ≠ 0
    | _ => true
  | .vStr s => s ≠ ""
  | .vArr _ => true
  | .vObj _ => true

/-- Property access `v[key]` on a JavaScript value: the last binding of the
key when `v` is an object (later assignments overwrite earlier ones), and
`undefined` (here `vNull`) otherwise. -/
def jsGet (v : JSValue) (key : String) : JSValue :=
  match v with
  | .vObj fields => ((fields.reverse).lookup key).getD .vNull
  | _ => .vNull

/-- JavaScript strict equality of a value with a string literal. -/
def jsStrictEqStr (v : JSValue) (s : String) : Bool :=
  match v with
  | .vStr t => t = s
  | _ => false

/-- Whether a value is a string (JavaScript `typeof v === "string"`). -/
def jsIsString : JSValue → Bool
  | .vStr _ => true
  | _ => false

/-- Embeds `Request.getMethod` (request adapter): if `this.body` is truthy,
return `this.body.method ?? this.req.method`, else the transport method. -/
def Request.getMethod (body : JSValue) (transport : String) : JSValue :=
  if jsTruthy body then
    match jsGet body ("method") with
    | .vNull => .vStr transport
    | v => v
  else .vStr transport

/-- Percent-decoding used by `URLSearchParams`: `+` becomes a space and
`%hh` becomes the character with that code (an ASCII-level approximation of
WHATWG byte decoding, exact for the ASCII data this application handles);
malformed escapes are left untouched. -/
def percentDecodeAux : Nat → List Char → List Char
  | 0, _ => []
  | _, [] => []
  | fuel + 1, c :: r =>
    if c = '+' then ' ' :: percentDecodeAux fuel r
    else if c = '%' then
      match r with
      | a :: b :: r2 =>
        match hexDigitVal a, hexDigitVal b with
        | some ha, some hb => Char.ofNat (16 * ha + hb) :: percentDecodeAux fuel r2
        | _, _ => '%' :: percentDecodeAux fuel (a :: b :: r2)
      | _ => '%' :: percentDecodeAux fuel r
    else c :: percentDecodeAux fuel r

/-- Percent-decoding on strings (the fuel bounds the number of emitted
characters, one per step, so the length of the input always suffices). -/
def percentDecode (s : String) : String :=
  String.mk (percentDecodeAux s.toList.length s.toList)

/-- Splitting helper mirroring JavaScript `split("&")`. -/
def splitAmpGo : List Char → List Char → List (List Char)
  | [], acc => [acc.reverse]
  | c :: r, acc => if c = '&' then acc.reverse :: splitAmpGo r [] else splitAmpGo r (c :: acc)

/-- Parse one `key=value` piece of a query string: split at the first `=`
(`key` alone means an empty value), then percent-decode both halves. -/
def urlPair (part : List Char) : String × String :=
  let k := part.takeWhile (fun c => c ≠ '=')
  let rest := part.dropWhile (fun c => c ≠ '=')
  let v := match rest with
    | [] => []
    | _ :: tail => tail
  (percentDecode (String.mk k), percentDecode (String.mk v))

/-- The entry list of `new URLSearchParams(s)`: strip one leading `?`, split
on `&`, drop empty pieces, split each piece at its first `=` and decode. -/
def urlsearchEntries (s : String) : List (String × String) :=
  let cs := s.toList
  let cs1 := match cs with
    | '?' :: r => r
    | r => r
  ((splitAmpGo cs1 []).filter (fun p => p ≠ [])).map urlPair

/-- `Object.fromEntries` over `URLSearchParams` entries, as a `JSValue` object
(later occurrences of a key overwrite earlier ones, which `jsGet` models by
returning the last binding). -/
def fromEntriesV (ps : List (String × String)) : JSValue :=
  .vObj (ps.map (fun kv => (kv.1, .vStr kv.2)))

/-- The four whitespace characters JSON allows between tokens. -/
def skipJsonWs (l : List Char) : List Char :=
  l.dropWhile (fun c => c = ' ' ∨ c = '\t' ∨ c = '\n' ∨ c = '\r')

/-- Parse the body of a JSON string literal (after the opening quote),
returning the decoded characters and the input remaining after the closing
quote; unescaped control characters and bad escapes fail, as in `JSON.parse`. -/
def jsonStrBody : List Char → Option (List Char × List Char)
  | [] => none
  | c :: r =>
    if c = '"' then some ([], r)
    else if c = '\\' then
      match r with
      | [] => none
      | e :: r2 =>
        if e = '"' ∨ e = '\\' ∨ e = '/' then
          (jsonStrBody r2).map (fun pr => (e :: pr.1, pr.2))
        else if e = 'b' then (jsonStrBody r2).map (fun pr => (Char.ofNat 8 :: pr.1, pr.2))
        else if e = 'f' then (jsonStrBody r2).map (fun pr => (Char.ofNat 12 :: pr.1, pr.2))
        else if e = 'n' then (jsonStrBody r2).map (fun pr => ('\n' :: pr.1, pr.2))
        else if e = 'r' then (jsonStrBody r2).map (fun pr => ('\r' :: pr.1, pr.2))
        else if e = 't' then (jsonStrBody r2).map (fun pr => ('\t' :: pr.1, pr.2))
        else if e = 'u' then
          match r2 with
          | h1 :: h2 :: h3 :: h4 :: r3 =>
            match hexDigitVal h1, hexDigitVal h2, hexDigitVal h3, hexDigitVal h4 with
            | some a, some b, some c2, some d =>
              (jsonStrBody r3).map
                (fun pr => (Char.ofNat (((a * 16 + b) * 16 + c2) * 16 + d) :: pr.1, pr.2))
            | _, _, _, _ => none
          | _ => none
        else none
    else if c.toNat < 32 then none
    else (jsonStrBody r).map (fun pr => (c :: pr.1, pr.2))

/-- Parse a JSON number literal at the head of the input (strict JSON grammar:
optional minus, no leading zeros, optional fraction and exponent). -/
def jsonNum (l : List Char) : Option (ℚ × List Char) :=
  let sgn : Bool × List Char :=
    match l with
    | '-' :: r => (true, r)
    | r => (false, r)
  let ip := sgn.2.takeWhile Char.isDigit
  let r1 := sgn.2.dropWhile Char.isDigit
  if ip = [] then none
  else if ip.length > 1 ∧ ip.headD '0' = '0' then none
  else
    let fpr : Option (List Char × List Char) :=
      match r1 with
      | '.' :: r2 =>
        let fp := r2.takeWhile Char.isDigit
        if fp = [] then none else some (fp, r2.dropWhile Char.isDigit)
      | _ => some ([], r1)
    match fpr with
    | none => none
    | some fr =>
      let er : Option (Int × List Char) :=
        match fr.2 with
        | c :: r3 =>
          if c = 'e' ∨ c = 'E' then
            let sr : Bool × List Char :=
              match r3 with
              | '+' :: rr => (false, rr)
              | '-' :: rr => (true, rr)
              | rr => (false, rr)
            let ds := sr.2.takeWhile Char.isDigit
            if ds = [] then none
            else some ((if sr.1 then -(decValue ds : Int) else (decValue ds : Int)),
                       sr.2.dropWhile Char.isDigit)
          else some (0, fr.2)
        | [] => some (0, [])
      match er with
      | none => none
      | some ev =>
        let q := decCombine ip fr.1 ev.1
        some ((if sgn.1 then -q else q), ev.2)

/-- Result alphabet for the fuel-indexed JSON parser: a single value, the item
list of an array, or the member list of an object. -/
inductive JRes where
  | rv : JSValue → JRes
  | rl : List JSValue → JRes
  | ro : List (String × JSValue) → JRes

/-- Parsing modes of the fuel-indexed JSON parser. -/
inductive JMode where
  | value : JMode
  | arrItems : JMode
  | objItems : JMode

/-- Fuel-indexed recursive-descent JSON parser (`JSON.parse` grammar).  In
mode `value` it parses one JSON value; in `arrItems` / `objItems` it parses
the comma-separated items after the opening bracket of an array / object,
including the closing bracket. -/
def jvParse : Nat → JMode → List Char → Option (JRes × List Char)
  | 0, _, _ => none
  | fuel + 1, .value, l =>
    let t := skipJsonWs l
    match t with
    | 'n' :: 'u' :: 'l' :: 'l' :: r => some (.rv .vNull, r)
    | 't' :: 'r' :: 'u' :: 'e' :: r => some (.rv (.vBool true), r)
    | 'f' :: 'a' :: 'l' :: 's' :: 'e' :: r => some (.rv (.vBool false), r)
    | _ =>
      match t with
      | [] => none
      | c :: r =>
        if c = '"' then
          (jsonStrBody r).map (fun pr => (.rv (.vStr (String.mk pr.1)), pr.2))
        else if c = '[' then
          match skipJsonWs r with
          | ']' :: r2 => some (.rv (.vArr []), r2)
          | r2 =>
            match jvParse fuel .arrItems r2 with
            | some (.rl xs, r3) => some (.rv (.vArr xs), r3)
            | _ => none
        else if c = Char.ofNat 123 then
          match skipJsonWs r with
          | r2 =>
            if r2.headD ' ' = Char.ofNat 125 then some (.rv (.vObj []), r2.tail)
            else
              match jvParse fuel .objItems r2 with
              | some (.ro fs, r3) => some (.rv (.vObj fs), r3)
              | _ => none
        else
          (jsonNum t).map (fun pr => (.rv (.vNum (.num pr.1)), pr.2))
  | fuel + 1, .arrItems, l =>
    match jvParse fuel .value l with
    | some (.rv v, r) =>
      match skipJsonWs r with
      | ',' :: r2 =>
        match jvParse fuel .arrItems r2 with
        | some (.rl xs, r3) => some (.rl (v :: xs), r3)
        | _ => none
      | ']' :: r2 => some (.rl [v], r2)
      | _ => none
    | _ => none
  | fuel + 1, .objItems, l =>
    match skipJsonWs l with
    | c :: r =>
      if c = '"' then
        match jsonStrBody r with
        | some (ks, r2) =>
          match skipJsonWs r2 with
          | ':' :: r3 =>
            match jvParse fuel .value r3 with
            | some (.rv v, r4) =>
              match skipJsonWs r4 with
              | ',' :: r5 =>
                match jvParse fuel .objItems r5 with
                | some (.ro fs, r6) => some (.ro ((String.mk ks, v) :: fs), r6)
                | _ => none
              | r5 =>
                if r5.headD ' ' = Char.ofNat 125 then some (.ro [(String.mk ks, v)], r5.tail)
                else none
            | _ => none
          | _ => none
        | none => none
      else none
    | [] => none

/-- `JSON.parse`: parse one value and require only whitespace to remain;
`none` models a thrown `SyntaxError`. -/
def jsonParse (s : String) : Option JSValue :=
  match jvParse (s.length + 1) .value s.toList with
  | some (.rv v, r) => if skipJsonWs r = [] then some v else none
  | _ => none

/-- Request-local state relevant to body parsing: the `body` field, which is
the empty object until `parseBody` succeeds. -/
structure ReqState where
  body : JSValue

/-- The initial request state (`body: Record<string, any> = {}`). -/
def ReqState.init : ReqState := ⟨.vObj []⟩

/-- The `Content-Type` test of `Request.parseBody`:
`this.req.headers["content-type"]?.includes("x-www-form-urlencoded")`, with
`undefined` falsy. -/
def isUrlencodedCT (contentType : Option String) : Bool :=
  match contentType with
  | some ct => strIncludes ct ("x-www-form-urlencoded")
  | none => false

/-- Embeds `Request.parseBody` after the transport has delivered the whole
body `raw`: parse as URL-encoded pairs when the `Content-Type` header includes
`x-www-form-urlencoded`, else as JSON; a JSON syntax error rejects with the
fixed error string and leaves the state unchanged, success stores the parsed
value in `body` and resolves with it. -/
def Request.parseBody (contentType : Option String) (raw : String) (_st : ReqState) :
    Except String (JSValue × ReqState) :=
  if isUrlencodedCT contentType then
    let b := fromEntriesV (urlsearchEntries raw)
    .ok (b, ⟨b⟩)
  else
    match jsonParse raw with
    | some v => .ok (v, ⟨v⟩)
    | none => .error ("Request body must be valid JSON")

/-- Status codes of the `StatusCode` enum used by the repository. -/
def StatusCode.OK : Nat := 200

/-- Status code 201. -/
def StatusCode.Created : Nat := 201

/-- Status code 302. -/
def StatusCode.Redirect : Nat := 302

/-- Status code 400. -/
def StatusCode.BadRequest : Nat := 400

/-- Status code 404. -/
def StatusCode.NotFound : Nat := 404

/-- Status code 500. -/
def StatusCode.InternalServerError : Nat := 500

/-- MIME type constants of the `ContentType` enum. -/
def ContentType.HTML : String := "text/html"

/-- The JSON MIME type constant. -/
def ContentType.JSON : String := "application/json"

/-- The descriptor handed to `Response.send` (`ResponseProps`). -/
structure ResponseProps where
  statusCode : Nat
  message : String
  payload : Option JSValue
  template : Option String
  redirect : Option String

/-- JavaScript truthiness of an optional string field of the descriptor
(`undefined` and the empty string are falsy). -/
def optStrTruthy : Option String → Bool
  | none => false
  | some s => s ≠ ""

/-- The single terminal write `Response.send` performs.  A redirect carries
only a status and a `Location` header (empty body, no content type); an HTML
render carries the status, the template to render and the payload handed to
the renderer; a JSON emission carries the status and the `{message, payload}`
body.  Only the redirect constructor has a `Location`. -/
inductive WriteAction where
  | redirectTo : Nat → String → WriteAction
  | htmlRender : Nat → String → Option JSValue → WriteAction
  | jsonEmit : Nat → String → Option JSValue → WriteAction

/-- Embeds `Response.send` given the already-computed content negotiation
result `acceptsHtml` (the value of `this.request.accepts(ContentType.HTML)`):
a truthy `redirect` wins when the client accepts HTML and writes a 302 with
the redirect target as `Location`; otherwise a truthy `template` is rendered
with the descriptor's status code; every other case falls through to a JSON
response with the descriptor's status code and `{message, payload}` body. -/
def Response.send (acceptsHtml : Bool) (p : ResponseProps) : WriteAction :=
  if acceptsHtml ∧ optStrTruthy p.redirect then
    .redirectTo StatusCode.Redirect ((p.redirect).getD "")
  else if acceptsHtml ∧ optStrTruthy p.template then
    .htmlRender p.statusCode ((p.template).getD "") p.payload
  else
    .jsonEmit p.statusCode p.message p.payload

/-- `Response.send` as reached from a request with the given `Accept` header:
content negotiation is `accepts(acceptHeader, "text/html")`. -/
def Response.sendTo (acceptHeader : Option String) (p : ResponseProps) : WriteAction :=
  Response.send (Request.accepts acceptHeader ContentType.HTML) p

/-- A registered route: HTTP method and path pattern.  Modelled from the spec:
`Router.ts` itself is not among the provided sources; the spec defines a route
as a (method, path pattern) pair matched in registration order. -/
structure Route where
  httpMethod : String
  pattern : String
deriving DecidableEq

/-- Modelled from the spec: one pattern segment matches one path segment iff
the pattern segment is dynamic (starts with `:`) and the path segment is
non-empty, or the two are equal literals. -/
def segMatches (pat seg : String) : Bool :=
  match pat.toList with
  | ':' :: _ => seg ≠ ""
  | _ => pat = seg

/-- Modelled from the spec: a pattern matches a path iff both split on `/`
into the same number of segments and the segments match pairwise. -/
def pathMatches (pattern path : String) : Bool :=
  let ps := splitSlash pattern
  let ss := splitSlash path
  ps.length = ss.length ∧ (List.zip ps ss).all (fun pr => segMatches pr.1 pr.2)

/-- Whether a route matches the given (effective) method and path. -/
def routeMatches (r : Route) (method path : String) : Bool :=
  r.httpMethod = method ∧ pathMatches r.pattern path

/-- Outcome of dispatch: either the first matching route is invoked, or the
404 descriptor is sent. -/
inductive DispatchOutcome where
  | handled : Route → DispatchOutcome
  | notFound : ResponseProps → DispatchOutcome

/-- Modelled from the spec: `Router.dispatch` selects the first registered
route whose method and pattern match; when none matches it responds 404 with
message `Invalid route: <METHOD> <path>` and no payload. -/
def Router.dispatch (routes : List Route) (method path : String) : DispatchOutcome :=
  match routes.find? (fun r => routeMatches r method path) with
  | some r => .handled r
  | none =>
    .notFound ⟨StatusCode.NotFound, "Invalid route: " ++ method ++ " " ++ path,
               none, none, none⟩

/-- Modelled from the spec: before matching, the effective method is derived
from the parsed body through the source's `Request.getMethod`; a non-string
result cannot equal any registered method string, in which case the transport
method string is what the 404 message shows. -/
def Router.dispatchReq (routes : List Route) (transport : String) (body : JSValue)
    (path : String) : DispatchOutcome :=
  let eff := match Request.getMethod body transport with
    | .vStr s => s
    | _ => transport
  Router.dispatch routes eff path

/-- The routes registered by `TodoController.registerRoutes` and
`SubTodoController.registerRoutes`, in registration order. -/
def appRoutes : List Route :=
  [⟨"GET", "/todos"⟩, ⟨"POST", "/todos"⟩,
   ⟨"GET", "/todos/new"⟩, ⟨"GET", "/todos/:id/edit"⟩,
   ⟨"GET", "/todos/:id"⟩, ⟨"PUT", "/todos/:id"⟩, ⟨"DELETE", "/todos/:id"⟩,
   ⟨"PUT", "/todos/:id/complete"⟩,
   ⟨"POST", "/todos/:id/subtodos"⟩, ⟨"GET", "/todos/:id/subtodos"⟩,
   ⟨"PUT", "/todos/:id/subtodos/:subid/complete"⟩]

/-- Embeds `TodoController.isSortByValid`. -/
def isSortByValid (s : String) : Bool :=
  s = "id" ∨ s = "title" ∨ s = "description" ∨ s = "dueAt" ∨ s = "createdAt" ∨ s = "updatedAt"

/-- Embeds `TodoController.isOrderByValid`. -/
def isOrderByValid (s : String) : Bool :=
  s = "asc" ∨ s = "desc"

/-- JavaScript truthiness of a `searchParams.get` result (`null` or string). -/
def queryTruthy : Option String → Bool
  | none => false
  | some s => s ≠ ""

/-- Embeds `TodoController.getTodoList` as the list of descriptors it passes
to `Response.send`, in order.  Inputs are the three query parameters
(`none` models a `null` from `searchParams.get`) and the outcome of the
`Todo.readAll` database call.  The catch branch of the source sends the
500 descriptor and then falls through (there is no `return`) to the final
200 send with the still-empty todo list. -/
def getTodoListRun (statusParam sortByParam orderByParam : Option String)
    (readAllOutcome : Except String (List JSValue)) : List ResponseProps :=
  let sortBy := sortByParam.getD "id"
  let orderBy := orderByParam.getD "asc"
  if queryTruthy statusParam ∧ statusParam ≠ some "incomplete" ∧ statusParam ≠ some "complete" then
    [⟨StatusCode.BadRequest, "Invalid filter parameter.", none, none, none⟩]
  else if sortBy ≠ "" ∧ ¬ isSortByValid sortBy then
    [⟨StatusCode.BadRequest, "Invalid sortBy parameter.", none, none, none⟩]
  else if orderBy ≠ "" ∧ ¬ isOrderByValid orderBy then
    [⟨StatusCode.BadRequest, "Invalid orderBy parameter.", none, none, none⟩]
  else
    match readAllOutcome with
    | .error _ =>
      [⟨StatusCode.InternalServerError, "Internal Server Error", none, some "ErrorView", none⟩,
       ⟨StatusCode.OK, "Todo list retrieved", some (.vObj [("todos", .vArr [])]),
        some "ListView", none⟩]
    | .ok todos =>
      [⟨StatusCode.OK, "Todo list retrieved", some (.vObj [("todos", .vArr todos)]),
        some "ListView", none⟩]

/-- Embeds `TodoController.sendFormEdit` as the list of descriptors it sends.
Inputs: the value of `req.getId()`, the outcome of `Todo.read` (`none` inside
`ok` meaning no row), the request body (whose `_method` field the handler
inspects), whether `todo.delete()` returns true, and whether
`todo.markComplete()` succeeds.  After sending the edit form the handler
keeps going and, when `_method` is `DELETE` or `PUT`, sends a second
descriptor. -/
def sendFormEditRun (idVal : JSNum) (readOutcome : Except String (Option JSValue))
    (body : JSValue) (deleteOk : Bool) (markCompleteOk : Bool) : List ResponseProps :=
  if idVal.isNaN then
    [⟨StatusCode.BadRequest, "Invalid ID", none, none, none⟩]
  else
    match readOutcome with
    | .error _ =>
      [⟨StatusCode.InternalServerError, "Error while fetching todo for edit",
        none, some "ErrorView", none⟩]
    | .ok none =>
      [⟨StatusCode.NotFound, "Todo not found", none, none, none⟩]
    | .ok (some todoProps) =>
      ⟨StatusCode.OK, "Edit Todo", some (.vObj [("todo", todoProps)]),
       some "EditFormView", none⟩ ::
      ((if jsStrictEqStr (jsGet body ("_method")) ("DELETE") then
          (if deleteOk then
            [⟨StatusCode.Redirect, "Todo deleted successfully!", none, none, some "/todos"⟩]
          else
            [⟨StatusCode.InternalServerError, "Error while deleting todo", none, none, none⟩])
        else []) ++
       (if jsStrictEqStr (jsGet body ("_method")) ("PUT") then
          (if markCompleteOk then
            [⟨StatusCode.Redirect, "Todo completed successfully!", none, none, some "/todos"⟩]
          else
            [⟨StatusCode.InternalServerError, "Error while deleting todo", none, none, none⟩])
        else []))

/-- Database operations the subtodo handlers perform, with the arguments that
reach the store. -/
inductive DBAction where
  | subTodoCreate : JSValue → JSNum → DBAction
  | subTodoRead : JSNum → DBAction
  | subTodoMarkComplete : JSNum → DBAction

/-- Embeds `SubTodoController.createSubtodo` (registered under
`POST /todos/:id/subtodos`): the list of database actions it performs and the
descriptors it sends.  The handler never checks `isNaN(todoId)`: the id value
flows straight into the `SubTodo.create` call and into the redirect target.
`isValidSubTodoProps` on the constructed props reduces to `req.body.title`
being a string, since the other checked fields are always assigned. -/
def createSubtodoRun (idVal : JSNum) (body : JSValue) (createOk : Bool) :
    List DBAction × List ResponseProps :=
  let titleV := jsGet body ("title")
  if ¬ jsIsString titleV then
    ([], [⟨StatusCode.BadRequest, "Request body must include title and description.",
           none, none, none⟩])
  else if createOk then
    ([.subTodoCreate titleV idVal],
     [⟨StatusCode.Redirect, "SubTodo created successfully!", none, none,
       some ("/todos/" ++ idVal.render)⟩])
  else
    ([.subTodoCreate titleV idVal],
     [⟨StatusCode.InternalServerError, "Internal Server Error", none, some "ErrorView", none⟩])

/-- Embeds `SubTodoController.completeSubTodo` (registered under
`PUT /todos/:id/subtodos/:subid/complete`): checks `isNaN(id) || id <= 0` for
both ids before touching the database, then reads the subtodo and marks it
complete. -/
def completeSubTodoRun (todoIdVal subIdVal : JSNum)
    (readOutcome : Except String (Option JSValue)) (markOk : Bool) :
    List DBAction × List ResponseProps :=
  if todoIdVal.isNaN ∨ todoIdVal.leZero then
    ([], [⟨StatusCode.BadRequest, "Invalid ID", none, none, none⟩])
  else if subIdVal.isNaN ∨ subIdVal.leZero then
    ([], [⟨StatusCode.BadRequest, "Invalid ID", none, none, none⟩])
  else
    match readOutcome with
    | .error _ =>
      ([.subTodoRead subIdVal],
       [⟨StatusCode.InternalServerError, "Internal Server Error", none, some "ErrorView", none⟩])
    | .ok none =>
      ([.subTodoRead subIdVal],
       [⟨StatusCode.NotFound, "SubTodo not found", none, none, none⟩])
    | .ok (some _) =>
      if markOk then
        ([.subTodoRead subIdVal, .subTodoMarkComplete subIdVal],
         [⟨StatusCode.Redirect, "SubTodo marked as complete!", none, none,
           some ("/todos/" ++ todoIdVal.render)⟩])
      else
        ([.subTodoRead subIdVal, .subTodoMarkComplete subIdVal],
         [⟨StatusCode.InternalServerError, "Internal Server Error", none, some "ErrorView", none⟩])

/-- The todo status enum (`'incomplete' | 'complete'`). -/
inductive TStatus where
  | incomplete : TStatus
  | complete : TStatus
deriving DecidableEq

/-- A row of the `todos` table / the props of a `Todo` instance (timestamps
as integer epoch milliseconds). -/
structure TodoRow where
  id : Nat
  title : String
  description : String
  status : TStatus
  dueAt : Option Int
  createdAt : Int
  completedAt : Option Int
  editedAt : Option Int
deriving DecidableEq

/-- A partial update (`Partial<TodoProps>`): only the present fields reach
the `SET` clause after case conversion. -/
structure TodoUpdate where
  title : Option String
  description : Option String
  status : Option TStatus
  dueAt : Option Int
  completedAt : Option Int
deriving DecidableEq

/-- Apply an update to a row as the generated `UPDATE ... SET` does: present
fields overwrite, and `edited_at` is always set to the current time. -/
def applyTodoUpdate (r : TodoRow) (u : TodoUpdate) (now : Int) : TodoRow :=
  ⟨r.id, u.title.getD r.title, u.description.getD r.description,
   u.status.getD r.status,
   (match u.dueAt with | some d => some d | none => r.dueAt),
   r.createdAt,
   (match u.completedAt with | some d => some d | none => r.completedAt),
   some now⟩

/-- Embeds `Todo.update`: run `UPDATE todos SET ... , edited_at = now WHERE
id = props.id RETURNING *`; destructuring the returned row fails when no row
matched (modelled as the error case), otherwise the instance's props become
the merged row and the table is updated in place. -/
def Todo.update (db : List TodoRow) (selfId : Option Nat) (u : TodoUpdate) (now : Int) :
    Except String (List TodoRow × TodoRow) :=
  match selfId with
  | none => .error ("no row returned")
  | some i =>
    match db.find? (fun r => r.id = i) with
    | none => .error ("no row returned")
    | some r =>
      .ok (db.map (fun row => if row.id = i then applyTodoUpdate row u now else row),
           applyTodoUpdate r u now)

/-- Embeds `Todo.markComplete`: `update({status: "complete", completedAt: now})`. -/
def Todo.markComplete (db : List TodoRow) (selfId : Option Nat) (now : Int) :
    Except String (List TodoRow × TodoRow) :=
  Todo.update db selfId ⟨none, none, some .complete, none, some now⟩ now

/-- The props of a `SubTodo` (camelCase field names). -/
structure SubTodoProps where
  id : Option Nat
  title : String
  status : TStatus
  createdAt : Int
  completedAt : Option Int
  todoId : Option Nat
deriving DecidableEq

/-- The database-facing entity of a `SubTodo` (snake_case field names). -/
structure SubTodoEntity where
  id : Option Nat
  title : String
  status : TStatus
  created_at : Int
  completed_at : Option Int
  todo_id : Option Nat
deriving DecidableEq

/-- A `SubTodo` instance as the conversion methods see it: its props. -/
structure SubTodo where
  props : SubTodoProps
deriving DecidableEq

/-- Embeds the static `SubTodo.toEntity(props)`. -/
def SubTodo.staticToEntity (p : SubTodoProps) : SubTodoEntity :=
  ⟨p.id, p.title, p.status, p.createdAt, p.completedAt, p.todoId⟩

/-- Embeds the static `SubTodo.toProps(entity)`. -/
def SubTodo.staticToProps (e : SubTodoEntity) : SubTodoProps :=
  ⟨e.id, e.title, e.status, e.created_at, e.completed_at, e.todo_id⟩

/-- Embeds the instance method `subTodo.toEntity()`, which reads
`this.props` field by field. -/
def SubTodo.toEntity (s : SubTodo) : SubTodoEntity :=
  ⟨s.props.id, s.props.title, s.props.status, s.props.createdAt,
   s.props.completedAt, s.props.todoId⟩

/-! Helper lemmas. -/

/-- A decimal digit is not JavaScript whitespace. -/
theorem digit_not_ws (c : Char) (h : c.isDigit = true) : isJsWs c = false := by
  cases hb : isJsWs c with
  | false => rfl
  | true =>
    exfalso
    have hmem : c ∈ jsWsChars := by
      have := hb
      simp only [isJsWs, List.contains] at this
      exact List.mem_of_elem_eq_true this
    simp only [jsWsChars, List.mem_cons, List.not_mem_nil, or_false] at hmem
    rcases hmem with rfl | rfl | rfl | rfl | rfl | rfl | rfl | rfl | rfl | rfl <;>
      exact absurd h (by decide)

/-- `dropWhile` is the identity on a list none of whose elements satisfy the
predicate. -/
theorem dropWhile_of_none (p : Char → Bool) (l : List Char)
    (h : ∀ c ∈ l, p c = false) : l.dropWhile p = l := by
  cases l with
  | nil => rfl
  | cons a t => simp [List.dropWhile, h a (by simp)]

/-- Trimming does not change an all-digit list. -/
theorem trimChars_digits (l : List Char) (h : ∀ c ∈ l, c.isDigit = true) :
    trimChars l = l := by
  unfold trimChars
  rw [dropWhile_of_none _ _ (fun c hc => digit_not_ws c (h c hc))]
  rw [dropWhile_of_none _ _ (fun c hc => digit_not_ws c (h c (List.mem_reverse.mp hc)))]
  exact List.reverse_reverse l

/-- An all-digit literal has no radix prefix. -/
theorem radixOf_digits (l : List Char) (h : ∀ c ∈ l, c.isDigit = true) :
    radixOf l = none := by
  match l with
  | [] => rfl
  | [c] => rfl
  | c0 :: c1 :: rest =>
    have h1 : c1.isDigit = true := h c1 (by simp)
    simp only [radixOf]
    split_ifs with h0 hx ho hb2 <;> try rfl
    · rcases hx with rfl | rfl <;> exact absurd h1 (by decide)
    · rcases ho with rfl | rfl <;> exact absurd h1 (by decide)
    · rcases hb2 with rfl | rfl <;> exact absurd h1 (by decide)

/-- `parseSigned` on a literal starting with a digit takes the signless arm. -/
theorem parseSigned_digit_head (c : Char) (t : List Char) (h : c.isDigit = true) :
    parseSigned (c :: t) = parseCore (c :: t) false := by
  unfold parseSigned
  split
  · rename_i heq
    injection heq with h1 h2
    rw [h1] at h
    exact absurd h (by decide)
  · rename_i heq
    injection heq with h1 h2
    rw [h1] at h
    exact absurd h (by decide)
  · rfl

/-- `Number()` of a non-empty all-digit literal is its decimal value. -/
theorem jsNumber_digits (l : List Char) (hne : l ≠ [])
    (hd : ∀ c ∈ l, c.isDigit = true) :
    jsNumberOfChars l = .num (decValue l) := by
  have htake : l.takeWhile Char.isDigit = l := List.takeWhile_eq_self_iff.mpr hd
  have hdrop : l.dropWhile Char.isDigit = [] := List.dropWhile_eq_nil_iff.mpr hd
  have hinf : l ≠ ("Infinity").toList := by
    intro heq
    have := hd 'I' (by rw [heq]; decide)
    exact absurd this (by decide)
  have hdec : parseUnsignedDec l = some ((decValue l : ℚ)) := by
    simp only [parseUnsignedDec, htake, hdrop]
    rw [if_neg hne]
    simp [parseExp, decCombine]
  have hcore : parseCore l false = .num (decValue l) := by
    unfold parseCore
    rw [if_neg hinf, hdec]
    simp
  unfold jsNumberOfChars
  rw [trimChars_digits l hd]
  unfold parseAfterTrim
  rw [if_neg hne, radixOf_digits l hd]
  cases l with
  | nil => exact absurd rfl hne
  | cons c t => rw [parseSigned_digit_head c t (hd c (by simp)), hcore]

/-! Claim theorems. -/

/-- C10: the `SubTodo` entity conversions round-trip: the static `toProps`
applied to the static `toEntity` of any props value gives back the props,
field for field, and the instance method `toEntity` agrees with the static
`toEntity` applied to the instance's props. -/
theorem claim_C10_subtodo_roundtrip :
    (∀ p : SubTodoProps, SubTodo.staticToProps (SubTodo.staticToEntity p) = p) ∧
    (∀ s : SubTodo, SubTodo.toEntity s = SubTodo.staticToEntity s.props) := by
  exact ⟨fun p => rfl, fun s => rfl⟩

/-- C9: marking a todo whose row exists and whose status is already
`complete` as complete again succeeds (no error) and leaves the status
`complete`. -/
theorem claim_C9_markComplete_idempotent (db : List TodoRow) (i : Nat) (r : TodoRow)
    (now : Int) (hfind : db.find? (fun row => row.id = i) = some r)
    (_hst : r.status = .complete) :
    ∃ db2 r2, Todo.markComplete db (some i) now = .ok (db2, r2) ∧ r2.status = .complete := by
  simp only [Todo.markComplete, Todo.update, hfind]
  exact ⟨_, _, rfl, rfl⟩

/-- C9 witness: a concrete one-row table whose todo is already complete. -/
theorem claim_C9_markComplete_idempotent_witness :
    ∃ db2 r2,
      Todo.markComplete [⟨1, "t", "d", .complete, none, 0, some 5, none⟩] (some 1) 7 =
        .ok (db2, r2) ∧ r2.status = .complete :=
  claim_C9_markComplete_idempotent [⟨1, "t", "d", .complete, none, 0, some 5, none⟩] 1
    ⟨1, "t", "d", .complete, none, 0, some 5, none⟩ 7 rfl rfl

/-- C1: `Response.send` branching.  For an HTML-accepting request a truthy
`redirect` always wins and produces a 302 whose `Location` is the redirect
target and whose body is empty (the `redirectTo` action carries nothing
else); otherwise a truthy `template` is rendered with the descriptor's status
code and an HTML content type; in every remaining case — in particular for a
client that does not accept HTML, whatever the descriptor holds — the write
is a JSON emission with the descriptor's status code and `{message, payload}`
body, and no `Location` (only `redirectTo` carries one). -/
theorem claim_C1_response_send (acc : Option String) (p : ResponseProps) :
    (Request.accepts acc ContentType.HTML = true → optStrTruthy p.redirect = true →
      ∃ loc, p.redirect = some loc ∧ Response.sendTo acc p = .redirectTo 302 loc) ∧
    (Request.accepts acc ContentType.HTML = true → optStrTruthy p.redirect = false →
      optStrTruthy p.template = true →
      ∃ t, p.template = some t ∧
        Response.sendTo acc p = .htmlRender p.statusCode t p.payload) ∧
    ((Request.accepts acc ContentType.HTML = false ∨
      (optStrTruthy p.redirect = false ∧ optStrTruthy p.template = false)) →
      Response.sendTo acc p = .jsonEmit p.statusCode p.message p.payload) := by
  refine ⟨?_, ?_, ?_⟩
  · intro h1 h2
    cases hr : p.redirect with
    | none => rw [hr] at h2; exact absurd h2 (by decide)
    | some loc =>
      refine ⟨loc, rfl, ?_⟩
      unfold Response.sendTo Response.send
      rw [if_pos ⟨h1, h2⟩, hr]
      rfl
  · intro h1 h2 h3
    cases ht : p.template with
    | none => rw [ht] at h3; exact absurd h3 (by decide)
    | some t =>
      refine ⟨t, rfl, ?_⟩
      unfold Response.sendTo Response.send
      rw [if_neg (by simp [h2]), if_pos ⟨h1, h3⟩, ht]
      rfl
  · intro h
    unfold Response.sendTo Response.send
    rcases h with h1 | ⟨h2, h3⟩
    · rw [if_neg (by simp [h1]), if_neg (by simp [h1])]
    · rw [if_neg (by simp [h2]), if_neg (by simp [h3])]

/-- C1 witness: the spec's own example pair — `send({statusCode: 302,
redirect: "/todos/1"})` to an HTML-accepting client is a 302 redirect with
that `Location`, and the same descriptor to a JSON-only client is a 302 JSON
emission. -/
theorem claim_C1_response_send_witness :
    (∃ loc, (some "/todos/1" : Option String) = some loc ∧
      Response.sendTo (some "text/html")
        ⟨302, "Todo created successfully!", none, none, some "/todos/1"⟩ =
        .redirectTo 302 loc) ∧
    Response.sendTo (some "application/json")
        ⟨302, "Todo created successfully!", none, none, some "/todos/1"⟩ =
      .jsonEmit 302 "Todo created successfully!" none :=
  ⟨(claim_C1_response_send (some "text/html")
      ⟨302, "Todo created successfully!", none, none, some "/todos/1"⟩).1
      (by decide) (by decide),
   (claim_C1_response_send (some "application/json")
      ⟨302, "Todo created successfully!", none, none, some "/todos/1"⟩).2.2
      (Or.inl (by decide))⟩

/-- C7: whenever no registered route matches the effective method and path,
dispatch answers 404 with the exact message `Invalid route: <METHOD> <path>`
and no payload (and no template or redirect).  The dispatcher is modelled
from the spec, `Router.ts` not being among the provided sources. -/
theorem claim_C7_invalid_route (routes : List Route) (method path : String)
    (h : ∀ r ∈ routes, routeMatches r method path = false) :
    Router.dispatch routes method path =
      .notFound ⟨404, "Invalid route: " ++ method ++ " " ++ path, none, none, none⟩ := by
  unfold Router.dispatch
  have hf : routes.find? (fun r => routeMatches r method path) = none :=
    List.find?_eq_none.mpr (by intro x hx; simp [h x hx])
  rw [hf]
  rfl

/-- C7 witness: the spec's example on the application's registered route
table — `GET /unregistered` matches nothing and yields exactly
`Invalid route: GET /unregistered`. -/
theorem claim_C7_invalid_route_witness :
    Router.dispatch appRoutes "GET" "/unregistered" =
      .notFound ⟨404, "Invalid route: GET /unregistered", none, none, none⟩ :=
  claim_C7_invalid_route appRoutes "GET" "/unregistered" (by decide)

/-- C3 counterexample: a POST whose parsed body carries `_method: "DELETE"`
is NOT routed as DELETE — `Request.getMethod` reads the field `method`, so
the override is ignored, the effective method stays POST, and a pattern
registered only under DELETE is missed (the dispatch falls to the 404). -/
theorem claim_C3_counterexample :
    Router.dispatchReq [⟨"DELETE", "/todos/:id"⟩] "POST"
        (.vObj [("_method", .vStr "DELETE")]) "/todos/1" =
      .notFound ⟨404, "Invalid route: POST /todos/1", none, none, none⟩ ∧
    Router.dispatchReq [⟨"DELETE", "/todos/:id"⟩] "POST"
        (.vObj [("_method", .vStr "DELETE")]) "/todos/1" ≠
      .handled ⟨"DELETE", "/todos/:id"⟩ := by
  refine ⟨rfl, ?_⟩
  intro h
  rw [(rfl :
    Router.dispatchReq [⟨"DELETE", "/todos/:id"⟩] "POST"
        (.vObj [("_method", .vStr "DELETE")]) "/todos/1" =
      .notFound ⟨404, "Invalid route: POST /todos/1", none, none, none⟩)] at h
  exact DispatchOutcome.noConfusion h

/-- C3 (amended): the override field the router-facing `getMethod` honours is
`method`, not `_method`: for every POST whose parsed body maps `method` to
the string `"DELETE"` or `"PUT"`, dispatch behaves exactly as a request with
that transport method, so a pattern registered only under that method is
reached. -/
theorem claim_C3_method_override (routes : List Route) (path : String)
    (fields : List (String × JSValue)) (M : String)
    (_hM : M = "DELETE" ∨ M = "PUT")
    (h : (fields.reverse).lookup "method" = some (.vStr M)) :
    Router.dispatchReq routes "POST" (.vObj fields) path =
      Router.dispatch routes M path := by
  have hg : Request.getMethod (.vObj fields) "POST" = .vStr M := by
    simp only [Request.getMethod, jsGet, jsTruthy, h]
    rfl
  show Router.dispatch routes
      (match Request.getMethod (.vObj fields) "POST" with
        | .vStr s => s
        | _ => "POST") path = Router.dispatch routes M path
  rw [hg]

/-- C3 witness: a POST with parsed body `{method: "DELETE"}` reaches the
route registered only under DELETE. -/
theorem claim_C3_method_override_witness :
    Router.dispatchReq [⟨"DELETE", "/todos/:id"⟩] "POST"
        (.vObj [("method", .vStr "DELETE")]) "/todos/1" =
      .handled ⟨"DELETE", "/todos/:id"⟩ :=
  (claim_C3_method_override [⟨"DELETE", "/todos/:id"⟩] "/todos/1"
    [("method", .vStr "DELETE")] "DELETE" (Or.inl rfl) rfl).trans (by rfl)

/-- C4 counterexample: the claim says a present-but-empty override falls back
to the transport method; the code instead returns the empty string, because
`??` only falls back on nullish values. -/
theorem claim_C4_counterexample :
    Request.getMethod (.vObj [("method", .vStr "")]) "POST" = .vStr "" ∧
    (JSValue.vStr "" ≠ JSValue.vStr "POST") := by
  refine ⟨rfl, ?_⟩
  intro h
  injection h with h2
  exact absurd h2 (by decide)

/-- C4 (amended): `getMethod` returns the body's `method` value whenever that
field is present with a non-nullish value — even the empty string — and the
transport method when the field is absent or null; before `parseBody` has run
the body is the empty object, so the transport method is returned. -/
theorem claim_C4_getMethod (fields : List (String × JSValue)) (transport : String) :
    (∀ v : JSValue, (fields.reverse).lookup "method" = some v → v ≠ .vNull →
      Request.getMethod (.vObj fields) transport = v) ∧
    ((fields.reverse).lookup "method" = none →
      Request.getMethod (.vObj fields) transport = .vStr transport) ∧
    ((fields.reverse).lookup "method" = some .vNull →
      Request.getMethod (.vObj fields) transport = .vStr transport) ∧
    Request.getMethod ReqState.init.body transport = .vStr transport := by
  refine ⟨?_, ?_, ?_, rfl⟩
  · intro v hl hv
    simp only [Request.getMethod, jsGet, jsTruthy, hl]
    cases v with
    | vNull => exact absurd rfl hv
    | vBool b => rfl
    | vNum n => rfl
    | vStr s => rfl
    | vArr xs => rfl
    | vObj fs => rfl
  · intro hl
    simp only [Request.getMethod, jsGet, jsTruthy, hl]
    rfl
  · intro hl
    simp only [Request.getMethod, jsGet, jsTruthy, hl]
    rfl

/-- C4 witness: concrete instances of the three amended behaviours — a
non-empty override, a missing field before parsing (empty body), and a null
field. -/
theorem claim_C4_getMethod_witness :
    Request.getMethod (.vObj [("method", .vStr "PUT")]) "POST" = .vStr "PUT" ∧
    Request.getMethod (.vObj [("title", .vStr "x")]) "POST" = .vStr "POST" ∧
    Request.getMethod (.vObj [("method", .vNull)]) "POST" = .vStr "POST" :=
  ⟨(claim_C4_getMethod [("method", .vStr "PUT")] "POST").1 (.vStr "PUT") rfl
      (by intro h; exact JSValue.noConfusion h),
   (claim_C4_getMethod [("title", .vStr "x")] "POST").2.1 rfl,
   (claim_C4_getMethod [("method", .vNull)] "POST").2.2.1 rfl⟩

/-- C2: the exactly-one-send invariant fails in the code.  First conjunct:
`getTodoList` on a request with no query parameters whose `Todo.readAll`
throws sends the 500 error descriptor and then — the catch block has no
`return` — falls through and sends the 200 list descriptor as well.  Second
conjunct: `sendFormEdit` on a found todo whose parsed body carries
`_method: "DELETE"` sends the edit form and then a second redirect
descriptor after deleting. -/
theorem claim_C2_double_send :
    getTodoListRun none none none (.error "database error") =
      [⟨500, "Internal Server Error", none, some "ErrorView", none⟩,
       ⟨200, "Todo list retrieved", some (.vObj [("todos", .vArr [])]),
        some "ListView", none⟩] ∧
    (getTodoListRun none none none (.error "database error")).length = 2 ∧
    (sendFormEditRun (.num 1) (.ok (some (.vObj [])))
        (.vObj [("_method", .vStr "DELETE")]) true true).length = 2 := by
  exact ⟨rfl, rfl, rfl⟩

/-- C8: the handlers of routes with an `:id` segment do not all guard a `NaN`
id.  First conjunct: `completeSubTodo` does (400 `Invalid ID`, no database
action).  Second and third conjuncts: `createSubtodo` with a `NaN` id and a
valid title performs the `SubTodo.create` database write with `todoId = NaN`
and responds with a redirect to `/todos/NaN` (or a 500 when the store
rejects) — never 400 `Invalid ID` — although the repository's own HTTP tests
expect 400 `Invalid ID` for `POST /todos/abc/subtodos`. -/
theorem claim_C8_createSubtodo_skips_id_check :
    completeSubTodoRun .nan (.num 1) (.ok none) true =
      ([], [⟨400, "Invalid ID", none, none, none⟩]) ∧
    createSubtodoRun .nan (.vObj [("title", .vStr "Test SubTodo")]) true =
      ([.subTodoCreate (.vStr "Test SubTodo") .nan],
       [⟨302, "SubTodo created successfully!", none, none, some "/todos/NaN"⟩]) ∧
    createSubtodoRun .nan (.vObj [("title", .vStr "Test SubTodo")]) false =
      ([.subTodoCreate (.vStr "Test SubTodo") .nan],
       [⟨500, "Internal Server Error", none, some "ErrorView", none⟩]) := by
  exact ⟨rfl, rfl, rfl⟩

/-- C5 counterexample: the URL `/todos//complete` has an empty (present but
non-numeric) segment at index 2, for which the claim demands `NaN`; the code
coerces the empty string with `Number("")`, which is `0`. -/
theorem claim_C5_counterexample :
    Request.getId (some "/todos//complete") = .num 0 ∧ JSNum.num 0 ≠ JSNum.nan := by
  exact ⟨by decide, by decide⟩

/-- C5 (amended): `getId` returns the JavaScript `Number` coercion of the
segment at index 2 of the raw URL split on `/` (and `getSubTodoId` of the
segment at index 4): `NaN` when the segment is absent; the denoted value for
a non-empty all-digit segment; but `0` — not `NaN` — for a present empty
segment; a concrete non-numeric segment also gives `NaN`. -/
theorem claim_C5_getId_getSubTodoId :
    (∀ url : Option String, url.bind (fun u => (splitSlash u)[2]?) = none →
      Request.getId url = .nan) ∧
    (∀ (url : Option String) (s : String), url.bind (fun u => (splitSlash u)[2]?) = some s →
      s.toList ≠ [] → (∀ c ∈ s.toList, c.isDigit = true) →
      Request.getId url = .num (decValue s.toList)) ∧
    (∀ url : Option String, url.bind (fun u => (splitSlash u)[2]?) = some "" →
      Request.getId url = .num 0) ∧
    (∀ url : Option String, url.bind (fun u => (splitSlash u)[4]?) = none →
      Request.getSubTodoId url = .nan) ∧
    (∀ (url : Option String) (s : String), url.bind (fun u => (splitSlash u)[4]?) = some s →
      s.toList ≠ [] → (∀ c ∈ s.toList, c.isDigit = true) →
      Request.getSubTodoId url = .num (decValue s.toList)) ∧
    (∀ url : Option String, url.bind (fun u => (splitSlash u)[4]?) = some "" →
      Request.getSubTodoId url = .num 0) ∧
    Request.getId (some "/todos/abc") = .nan ∧
    Request.getSubTodoId (some "/todos/1/subtodos/xyz") = .nan := by
  refine ⟨?_, ?_, ?_, ?_, ?_, ?_, by decide, by decide⟩
  · intro url h
    simp only [Request.getId, h, jsNumberOpt]
  · intro url s h hne hd
    simp only [Request.getId, h, jsNumberOpt, jsNumber]
    exact jsNumber_digits s.toList hne hd
  · intro url h
    simp only [Request.getId, h, jsNumberOpt]
    decide
  · intro url h
    simp only [Request.getSubTodoId, h, jsNumberOpt]
  · intro url s h hne hd
    simp only [Request.getSubTodoId, h, jsNumberOpt, jsNumber]
    exact jsNumber_digits s.toList hne hd
  · intro url h
    simp only [Request.getSubTodoId, h, jsNumberOpt]
    decide

/-- C5 witness: concrete URLs for the three behaviours of each accessor. -/
theorem claim_C5_getId_getSubTodoId_witness :
    Request.getId (some "/todos") = .nan ∧
    Request.getId (some "/todos/42") = .num (decValue ("42").toList) ∧
    Request.getId (some "/todos//edit") = .num 0 ∧
    Request.getSubTodoId (some "/todos/1/subtodos/7") = .num (decValue ("7").toList) ∧
    Request.getSubTodoId (some "/todos/1") = .nan :=
  ⟨claim_C5_getId_getSubTodoId.1 (some "/todos") rfl,
   claim_C5_getId_getSubTodoId.2.1 (some "/todos/42") "42" rfl (by decide) (by decide),
   claim_C5_getId_getSubTodoId.2.2.1 (some "/todos//edit") rfl,
   claim_C5_getId_getSubTodoId.2.2.2.2.1 (some "/todos/1/subtodos/7") "7" rfl
     (by decide) (by decide),
   claim_C5_getId_getSubTodoId.2.2.2.1 (some "/todos/1") rfl⟩

/-- C6: `parseBody` on a fully buffered body: the URL-encoded parse is chosen
exactly when the `Content-Type` includes `x-www-form-urlencoded` and never
rejects; the JSON branch rejects exactly when `JSON.parse` throws, with the
fixed error string; and every success stores the parsed value in the
request's `body` field and resolves with the same value. -/
theorem claim_C6_parseBody (ct : Option String) (raw : String) (st : ReqState) :
    ((∃ e, Request.parseBody ct raw st = .error e) ↔
      (isUrlencodedCT ct = false ∧ jsonParse raw = none)) ∧
    (∀ e, Request.parseBody ct raw st = .error e →
      e = "Request body must be valid JSON") ∧
    (∀ v st2, Request.parseBody ct raw st = .ok (v, st2) → st2.body = v) ∧
    (isUrlencodedCT ct = true →
      Request.parseBody ct raw st =
        .ok (fromEntriesV (urlsearchEntries raw), ⟨fromEntriesV (urlsearchEntries raw)⟩)) ∧
    (∀ v, isUrlencodedCT ct = false → jsonParse raw = some v →
      Request.parseBody ct raw st = .ok (v, ⟨v⟩)) := by
  by_cases hc : isUrlencodedCT ct = true
  · have hpb : Request.parseBody ct raw st =
        .ok (fromEntriesV (urlsearchEntries raw), ⟨fromEntriesV (urlsearchEntries raw)⟩) := by
      unfold Request.parseBody
      rw [if_pos hc]
    refine ⟨⟨?_, ?_⟩, ?_, ?_, fun _ => hpb, ?_⟩
    · rintro ⟨e, he⟩
      rw [hpb] at he
      exact Except.noConfusion he
    · rintro ⟨hc2, _⟩
      rw [hc] at hc2
      exact Bool.noConfusion hc2
    · intro e he
      rw [hpb] at he
      exact Except.noConfusion he
    · intro v st2 hok
      rw [hpb] at hok
      injection hok with h1
      obtain ⟨hv, hst2⟩ := Prod.mk.inj h1
      rw [← hst2]
      exact hv
    · intro v hcf _
      rw [hc] at hcf
      exact Bool.noConfusion hcf
  · have hcf : isUrlencodedCT ct = false := by
      simpa using hc
    cases hj : jsonParse raw with
    | none =>
      have hpb : Request.parseBody ct raw st = .error ("Request body must be valid JSON") := by
        unfold Request.parseBody
        rw [if_neg hc, hj]
      refine ⟨⟨fun _ => ⟨hcf, rfl⟩, fun _ => ⟨_, hpb⟩⟩, ?_, ?_, ?_, ?_⟩
      · intro e he
        rw [hpb] at he
        injection he with h1
        exact h1.symm
      · intro v st2 hok
        rw [hpb] at hok
        exact Except.noConfusion hok
      · intro hct
        exact absurd hct hc
      · intro v _ hjv
        exact Option.noConfusion hjv
    | some v0 =>
      have hpb : Request.parseBody ct raw st = .ok (v0, ⟨v0⟩) := by
        unfold Request.parseBody
        rw [if_neg hc, hj]
      refine ⟨⟨?_, ?_⟩, ?_, ?_, ?_, ?_⟩
      · rintro ⟨e, he⟩
        rw [hpb] at he
        exact Except.noConfusion he
      · rintro ⟨_, hjn⟩
        exact Option.noConfusion hjn
      · intro e he
        rw [hpb] at he
        exact Except.noConfusion he
      · intro v st2 hok
        rw [hpb] at hok
        injection hok with h1
        obtain ⟨hv, hst2⟩ := Prod.mk.inj h1
        rw [← hst2]
        exact hv
      · intro hct
        exact absurd hct hc
      · intro v hcf2 hjv
        injection hjv with hv
        rw [hpb, hv]

/-- C6 witness: a malformed JSON body rejects with the fixed error string; a
form-encoded body parses to its entry object; a valid JSON body is stored in
the request state and resolved. -/
theorem claim_C6_parseBody_witness :
    Request.parseBody none "notjson" ReqState.init =
      .error ("Request body must be valid JSON") ∧
    Request.parseBody (some "application/x-www-form-urlencoded") "title=A" ReqState.init =
      .ok (fromEntriesV (urlsearchEntries "title=A"),
           ⟨fromEntriesV (urlsearchEntries "title=A")⟩) ∧
    Request.parseBody none "true" ReqState.init = .ok (.vBool true, ⟨.vBool true⟩) := by
  refine ⟨?_, ?_, ?_⟩
  · obtain ⟨e, he⟩ := (claim_C6_parseBody none "notjson" ReqState.init).1.mpr ⟨rfl, rfl⟩
    have h2 := (claim_C6_parseBody none "notjson" ReqState.init).2.1 e he
    rw [h2] at he
    exact he
  · exact (claim_C6_parseBody (some "application/x-www-form-urlencoded") "title=A"
      ReqState.init).2.2.2.1 (by decide)
  · exact (claim_C6_parseBody none "true" ReqState.init).2.2.2.2 (.vBool true) rfl rfl
